import Mathlib

/-!
Verification of the display and surface bookkeeping core of an EGL platform
library (platform-base). The data model follows the struct declarations in
src/src/base/platform-base.h. The implementation file platform-base.c is not
part of the sources, so the operational behaviour of the declared entrypoints
is modelled from the specification text, as noted in each doc comment.
-/

namespace Epl

/-- Surface types tracked by the platform base (window and pixmap),
from EplSurfaceType in platform-base.h. -/
inductive EplSurfaceType where
  | window
  | pixmap
deriving DecidableEq, Repr

/-- Behaviour of the underlying driver (the dependency): for the n-th
dependency initialize call, either the returned major and minor versions, or
none for failure; for the n-th dependency terminate call, whether it
succeeds. -/
structure DepBehavior where
  initResult : Nat → Option (Int × Int)
  termResult : Nat → Bool

/-- Model of EplPlatformData (platform-base.h): the teardown flag
destroyed, the display-reference extension capability flag, and
instrumentation counters recording how many times the dependency initialize
and terminate entrypoints have been invoked. -/
structure EplPlatformData where
  destroyed : Bool
  display_reference : Bool
  depInitCalls : Nat
  depTermCalls : Nat
deriving DecidableEq, Repr

/-- Model of EplInternalDisplay (platform-base.h): init_count is the
unsigned counter simulating EGL_KHR_display_reference, together with the
cached major and minor versions from the first successful initialization. -/
structure EplInternalDisplay where
  init_count : Nat
  major : Int
  minor : Int
deriving DecidableEq, Repr

/-- Modelled from the spec: eplInitializeInternalDisplay (platform-base.c is
missing from the sources; only its declaration is in platform-base.h).
It increments init_count; on the 0 to 1 transition, or on every call when the
dependency natively supports the display-reference extension, it calls the
dependency initialize, caching the returned major and minor versions; on
other transitions it returns the cached versions without a dependency call;
if the dependency call fails the tentative increment is rolled back; after
teardown it fails without touching the dependency. -/
def eplInitializeInternalDisplay (dep : DepBehavior) (p : EplPlatformData)
    (d : EplInternalDisplay) :
    EplPlatformData × EplInternalDisplay × Option (Int × Int) :=
  if p.destroyed then (p, d, none)
  else if p.display_reference = true ∨ d.init_count = 0 then
    match dep.initResult p.depInitCalls with
    | some (ma, mi) =>
        ({ p with depInitCalls := p.depInitCalls + 1 },
         { init_count := d.init_count + 1, major := ma, minor := mi },
         some (ma, mi))
    | none =>
        ({ p with depInitCalls := p.depInitCalls + 1 }, d, none)
  else
    (p, { d with init_count := d.init_count + 1 }, some (d.major, d.minor))

/-- Modelled from the spec: eplTerminateInternalDisplay (platform-base.c is
missing from the sources). It fails if init_count is already 0 (a logic
error, reported rather than silently ignored); otherwise it decrements
init_count and, on the 1 to 0 transition (or on every call when the
display-reference extension is natively supported), calls the dependency
terminate, failing if that call fails; after teardown it fails without
touching the dependency. -/
def eplTerminateInternalDisplay (dep : DepBehavior) (p : EplPlatformData)
    (d : EplInternalDisplay) :
    EplPlatformData × EplInternalDisplay × Bool :=
  if p.destroyed then (p, d, false)
  else if d.init_count = 0 then (p, d, false)
  else if p.display_reference = true ∨ d.init_count = 1 then
    ({ p with depTermCalls := p.depTermCalls + 1 },
     { d with init_count := d.init_count - 1 },
     dep.termResult p.depTermCalls)
  else
    (p, { d with init_count := d.init_count - 1 }, true)

/-- A logical operation on an internal display: initialize or terminate. -/
inductive IOp where
  | init
  | term
deriving DecidableEq, Repr

/-- One step of the internal-display machine. -/
def idpyStep (dep : DepBehavior) (s : EplPlatformData × EplInternalDisplay)
    (op : IOp) : EplPlatformData × EplInternalDisplay :=
  match op with
  | .init =>
      ((eplInitializeInternalDisplay dep s.1 s.2).1,
       (eplInitializeInternalDisplay dep s.1 s.2).2.1)
  | .term =>
      ((eplTerminateInternalDisplay dep s.1 s.2).1,
       (eplTerminateInternalDisplay dep s.1 s.2).2.1)

/-- Run a sequence of logical initialize and terminate operations. -/
def runIDpy (dep : DepBehavior) :
    List IOp → EplPlatformData × EplInternalDisplay →
    EplPlatformData × EplInternalDisplay
  | [], s => s
  | op :: ops, s => runIDpy dep ops (idpyStep dep s op)

/-- The list of states visited while running a sequence of operations,
starting state included. -/
def idpyTrace (dep : DepBehavior) :
    List IOp → EplPlatformData × EplInternalDisplay →
    List (EplPlatformData × EplInternalDisplay)
  | [], s => [s]
  | op :: ops, s => s :: idpyTrace dep ops (idpyStep dep s op)

/-- Number of adjacent 0 to 1 transitions in a list of counter values. -/
def countT01 : List Nat → Nat
  | a :: b :: r => (if a = 0 ∧ b = 1 then 1 else 0) + countT01 (b :: r)
  | _ => 0

/-- Number of adjacent 1 to 0 transitions in a list of counter values. -/
def countT10 : List Nat → Nat
  | a :: b :: r => (if a = 1 ∧ b = 0 then 1 else 0) + countT10 (b :: r)
  | _ => 0

theorem idpyTrace_head (dep : DepBehavior) (ops : List IOp)
    (s : EplPlatformData × EplInternalDisplay) :
    idpyTrace dep ops s = s :: (idpyTrace dep ops s).tail := by
  cases ops <;> rfl

theorem idpyStep_counts (dep : DepBehavior)
    (p : EplPlatformData) (d : EplInternalDisplay) (op : IOp)
    (hd : p.destroyed = false) (hx : p.display_reference = false)
    (hok : dep.initResult p.depInitCalls ≠ none) :
    (idpyStep dep (p, d) op).1.depInitCalls
      = p.depInitCalls
        + (if d.init_count = 0 ∧ (idpyStep dep (p, d) op).2.init_count = 1
           then 1 else 0)
    ∧ (idpyStep dep (p, d) op).1.depTermCalls
      = p.depTermCalls
        + (if d.init_count = 1 ∧ (idpyStep dep (p, d) op).2.init_count = 0
           then 1 else 0)
    ∧ (idpyStep dep (p, d) op).1.destroyed = false
    ∧ (idpyStep dep (p, d) op).1.display_reference = false := by
  cases op
  · simp only [idpyStep, eplInitializeInternalDisplay, hd, hx]
    cases hres : dep.initResult p.depInitCalls with
    | none => exact absurd hres hok
    | some v =>
      cases v with
      | mk ma mi =>
        by_cases h0 : d.init_count = 0
        · simp [h0, hres, hd, hx]
        · simp [h0, hres, hd, hx]
  · simp only [idpyStep, eplTerminateInternalDisplay, hd, hx]
    by_cases h0 : d.init_count = 0
    · simp [h0, hd, hx]
    · by_cases h1 : d.init_count = 1
      · simp [h0, h1, hd, hx]
      · have h2 : ¬(d.init_count - 1 = 1 ∧ d.init_count = 0) := by omega
        have h3 : ¬(d.init_count = 1 ∧ d.init_count - 1 = 0) := by omega
        simp [h0, h1, hd, hx, h2, h3]

theorem idpy_counts (dep : DepBehavior)
    (hok : ∀ n, dep.initResult n ≠ none) :
    ∀ (ops : List IOp) (p : EplPlatformData) (d : EplInternalDisplay),
    p.destroyed = false → p.display_reference = false →
    (runIDpy dep ops (p, d)).1.depInitCalls
      = p.depInitCalls
        + countT01 (List.map (fun s => s.2.init_count) (idpyTrace dep ops (p, d)))
    ∧ (runIDpy dep ops (p, d)).1.depTermCalls
      = p.depTermCalls
        + countT10 (List.map (fun s => s.2.init_count) (idpyTrace dep ops (p, d)))
  | [], p, d, _, _ => by
    simp [runIDpy, idpyTrace, countT01, countT10]
  | op :: ops, p, d, hd, hx => by
    obtain ⟨hsi, hst, hdz, hdr⟩ := idpyStep_counts dep p d op hd hx (hok _)
    obtain ⟨hI, hT⟩ := idpy_counts dep hok ops (idpyStep dep (p, d) op).1
        (idpyStep dep (p, d) op).2 hdz hdr
    rw [Prod.mk.eta] at hI hT
    have htr : idpyTrace dep (op :: ops) (p, d)
        = (p, d) :: idpyTrace dep ops (idpyStep dep (p, d) op) := rfl
    refine ⟨?_, ?_⟩
    · show (runIDpy dep ops (idpyStep dep (p, d) op)).1.depInitCalls = _
      rw [hI, hsi, htr, idpyTrace_head dep ops (idpyStep dep (p, d) op),
        List.map_cons, List.map_cons]
      simp only [countT01]
      omega
    · show (runIDpy dep ops (idpyStep dep (p, d) op)).1.depTermCalls = _
      rw [hT, hst, htr, idpyTrace_head dep ops (idpyStep dep (p, d) op),
        List.map_cons, List.map_cons]
      simp only [countT10]
      omega

/-- Claim C1: for every sequence of initialize and terminate calls on one
internal display when the dependency lacks native support for the
display-reference extension, the dependency initialize entrypoint is invoked
exactly once per 0 to 1 transition of init_count and the dependency
terminate entrypoint exactly once per 1 to 0 transition; an initialize call
from a non-zero init_count returns the cached major and minor versions
without any dependency call. -/
theorem claim_C1 (dep : DepBehavior) (ops : List IOp)
    (p : EplPlatformData) (d : EplInternalDisplay)
    (hd : p.destroyed = false) (hx : p.display_reference = false)
    (hok : ∀ n, dep.initResult n ≠ none) :
    (runIDpy dep ops (p, d)).1.depInitCalls
      = p.depInitCalls
        + countT01 (List.map (fun s => s.2.init_count) (idpyTrace dep ops (p, d)))
    ∧ (runIDpy dep ops (p, d)).1.depTermCalls
      = p.depTermCalls
        + countT10 (List.map (fun s => s.2.init_count) (idpyTrace dep ops (p, d)))
    ∧ (∀ (q : EplPlatformData) (e : EplInternalDisplay),
        q.destroyed = false → q.display_reference = false → e.init_count ≠ 0 →
        eplInitializeInternalDisplay dep q e
          = (q, { e with init_count := e.init_count + 1 }, some (e.major, e.minor))) := by
  obtain ⟨h1, h2⟩ := idpy_counts dep hok ops p d hd hx
  refine ⟨h1, h2, ?_⟩
  intro q e hqd hqx hne
  simp [eplInitializeInternalDisplay, hqd, hqx, hne]

/-- Concrete witness for claim C1: the sequence init, init, term, term with
an always-succeeding dependency makes exactly one dependency initialize call
and one dependency terminate call. -/
theorem claim_C1_witness :
    (runIDpy ⟨fun _ => some (1, 4), fun _ => true⟩
        [IOp.init, IOp.init, IOp.term, IOp.term]
        (⟨false, false, 0, 0⟩, ⟨0, 0, 0⟩)).1.depInitCalls
      = 0 + countT01 (List.map (fun s => s.2.init_count)
          (idpyTrace ⟨fun _ => some (1, 4), fun _ => true⟩
            [IOp.init, IOp.init, IOp.term, IOp.term]
            (⟨false, false, 0, 0⟩, ⟨0, 0, 0⟩)))
    ∧ (runIDpy ⟨fun _ => some (1, 4), fun _ => true⟩
        [IOp.init, IOp.init, IOp.term, IOp.term]
        (⟨false, false, 0, 0⟩, ⟨0, 0, 0⟩)).1.depTermCalls
      = 0 + countT10 (List.map (fun s => s.2.init_count)
          (idpyTrace ⟨fun _ => some (1, 4), fun _ => true⟩
            [IOp.init, IOp.init, IOp.term, IOp.term]
            (⟨false, false, 0, 0⟩, ⟨0, 0, 0⟩))) := by
  have h := claim_C1 ⟨fun _ => some (1, 4), fun _ => true⟩
    [IOp.init, IOp.init, IOp.term, IOp.term]
    ⟨false, false, 0, 0⟩ ⟨0, 0, 0⟩ rfl rfl (fun n => by simp)
  exact ⟨h.1, h.2.1⟩

/-- Claim C6: if the dependency initialize call made inside
eplInitializeInternalDisplay fails, the function returns failure and the
internal display state, init_count included, is exactly what it was before
the call: the tentative increment is rolled back. -/
theorem claim_C6 (dep : DepBehavior) (p : EplPlatformData)
    (d : EplInternalDisplay)
    (hd : p.destroyed = false)
    (hfail : dep.initResult p.depInitCalls = none)
    (hcall : p.display_reference = true ∨ d.init_count = 0) :
    (eplInitializeInternalDisplay dep p d).2.2 = none
    ∧ (eplInitializeInternalDisplay dep p d).2.1 = d := by
  simp [eplInitializeInternalDisplay, hd, hcall, hfail]

/-- Concrete witness for claim C6: a dependency whose initialize always
fails leaves init_count at 0 and reports failure. -/
theorem claim_C6_witness :
    (eplInitializeInternalDisplay ⟨fun _ => none, fun _ => true⟩
        ⟨false, false, 0, 0⟩ ⟨0, 7, 8⟩).2.2 = none
    ∧ (eplInitializeInternalDisplay ⟨fun _ => none, fun _ => true⟩
        ⟨false, false, 0, 0⟩ ⟨0, 7, 8⟩).2.1 = ⟨0, 7, 8⟩ :=
  claim_C6 ⟨fun _ => none, fun _ => true⟩ ⟨false, false, 0, 0⟩ ⟨0, 7, 8⟩
    rfl rfl (Or.inr rfl)

/-- Claim C7: eplTerminateInternalDisplay fails, reporting the condition,
whenever it is called with init_count already 0; otherwise it decrements
init_count, calls the dependency terminate only on the 1 to 0 transition,
and fails exactly when that dependency call fails. -/
theorem claim_C7 (dep : DepBehavior) (p : EplPlatformData)
    (d : EplInternalDisplay)
    (hd : p.destroyed = false) (hx : p.display_reference = false) :
    (d.init_count = 0 → eplTerminateInternalDisplay dep p d = (p, d, false))
    ∧ (d.init_count = 1 →
        eplTerminateInternalDisplay dep p d
          = ({ p with depTermCalls := p.depTermCalls + 1 },
             { d with init_count := 0 }, dep.termResult p.depTermCalls))
    ∧ (2 ≤ d.init_count →
        eplTerminateInternalDisplay dep p d
          = (p, { d with init_count := d.init_count - 1 }, true)) := by
  refine ⟨?_, ?_, ?_⟩
  · intro h0
    simp [eplTerminateInternalDisplay, hd, h0]
  · intro h1
    simp [eplTerminateInternalDisplay, hd, hx, h1]
  · intro h2
    have h0 : ¬d.init_count = 0 := by omega
    have h1 : ¬d.init_count = 1 := by omega
    simp [eplTerminateInternalDisplay, hd, hx, h0, h1]

/-- Concrete witness for claim C7: terminate on init_count 0 fails without
state change, and terminate on init_count 1 with a failing dependency
terminate reports the dependency failure. -/
theorem claim_C7_witness :
    eplTerminateInternalDisplay ⟨fun _ => some (1, 4), fun _ => false⟩
        ⟨false, false, 1, 0⟩ ⟨0, 1, 4⟩ = (⟨false, false, 1, 0⟩, ⟨0, 1, 4⟩, false)
    ∧ eplTerminateInternalDisplay ⟨fun _ => some (1, 4), fun _ => false⟩
        ⟨false, false, 1, 0⟩ ⟨1, 1, 4⟩
        = (⟨false, false, 1, 1⟩, ⟨0, 1, 4⟩, false) :=
  ⟨(claim_C7 ⟨fun _ => some (1, 4), fun _ => false⟩ ⟨false, false, 1, 0⟩
      ⟨0, 1, 4⟩ rfl rfl).1 rfl,
   (claim_C7 ⟨fun _ => some (1, 4), fun _ => false⟩ ⟨false, false, 1, 0⟩
      ⟨1, 1, 4⟩ rfl rfl).2.1 rfl⟩

/-- An operation on an external display: acquiring and releasing an
ordinary reference, acquiring and releasing a use-count reference, and the
logical initialize and terminate requests. -/
inductive DpyOp where
  | refAcquire
  | refRelease
  | useAcquire
  | useRelease
  | initOp
  | terminate
deriving DecidableEq, Repr

/-- Model of EplDisplay (platform-base.h): the ordinary refcount, the
track_references creation flag, the init_count and use_count counters, the
initialized flag, the deferred-terminate flag, a destroyed marker standing
for the struct having been freed, and instrumentation counters for the
dependency initialize and terminate calls made on behalf of this display.
The counters are modelled as integers so that their non-negativity is a
provable invariant rather than a typing artifact. -/
structure EplDisplay where
  refcount : Int
  track_references : Bool
  init_count : Int
  use_count : Int
  initialized : Bool
  terminate_pending : Bool
  destroyed : Bool
  depInitCalls : Nat
  depTermCalls : Nat
deriving DecidableEq, Repr

/-- Modelled from the spec: one step of the external-display lifecycle
(platform-base.c is missing from the sources). Ordinary release destroys the
display only when the refcount reaches zero with no use-count holder;
use-count release executes a pending deferred terminate when the last holder
leaves and then completes destruction if the refcount already reached zero;
a terminate request that brings init_count to zero while the display is in
use is recorded as pending instead of calling the dependency; init_count is
capped at 1 when track_references is false. A destroyed display accepts no
further operations. -/
def dpyStep (s : EplDisplay) : DpyOp → EplDisplay
  | .refAcquire =>
      if s.destroyed then s else { s with refcount := s.refcount + 1 }
  | .refRelease =>
      if s.destroyed ∨ s.refcount ≤ 0 then s
      else if s.refcount - 1 = 0 ∧ s.use_count = 0 then
        { s with refcount := 0, destroyed := true }
      else { s with refcount := s.refcount - 1 }
  | .useAcquire =>
      if s.destroyed then s else { s with use_count := s.use_count + 1 }
  | .useRelease =>
      if s.destroyed ∨ s.use_count ≤ 0 then s
      else if s.use_count - 1 = 0 then
        if s.terminate_pending then
          if s.refcount = 0 then
            { s with use_count := 0, terminate_pending := false,
                     depTermCalls := s.depTermCalls + 1, destroyed := true }
          else
            { s with use_count := 0, terminate_pending := false,
                     depTermCalls := s.depTermCalls + 1 }
        else
          if s.refcount = 0 then { s with use_count := 0, destroyed := true }
          else { s with use_count := 0 }
      else { s with use_count := s.use_count - 1 }
  | .initOp =>
      if s.destroyed then s
      else if s.initialized then
        if s.track_references then { s with init_count := s.init_count + 1 }
        else s
      else
        { s with initialized := true, init_count := 1,
                 depInitCalls := s.depInitCalls + 1 }
  | .terminate =>
      if s.destroyed ∨ s.init_count ≤ 0 then s
      else if s.init_count - 1 = 0 then
        if 0 < s.use_count then
          { s with init_count := 0, initialized := false,
                   terminate_pending := true }
        else
          { s with init_count := 0, initialized := false,
                   depTermCalls := s.depTermCalls + 1 }
      else { s with init_count := s.init_count - 1 }

/-- Run a sequence of display operations. -/
def dpyRun : List DpyOp → EplDisplay → EplDisplay
  | [], s => s
  | op :: ops, s => dpyRun ops (dpyStep s op)

/-- The list of states visited while running a sequence of display
operations, starting state included. -/
def dpyTrace : List DpyOp → EplDisplay → List EplDisplay
  | [], s => [s]
  | op :: ops, s => s :: dpyTrace ops (dpyStep s op)

/-- A freshly created display: one reference held by the creator, not
initialized, not in use. -/
def dpyInit (track : Bool) : EplDisplay :=
  { refcount := 1, track_references := track, init_count := 0, use_count := 0,
    initialized := false, terminate_pending := false, destroyed := false,
    depInitCalls := 0, depTermCalls := 0 }

/-- The safety invariant of a display: non-negative counters, the
init_count cap without track_references, and no use-count holder on a
destroyed display. -/
def DpyInv (s : EplDisplay) : Prop :=
  0 ≤ s.refcount ∧ 0 ≤ s.init_count ∧ 0 ≤ s.use_count
  ∧ (s.track_references = false → s.init_count ≤ 1)
  ∧ (s.destroyed = true → s.use_count = 0)

theorem dpyStep_inv (s : EplDisplay) (op : DpyOp) (h : DpyInv s) :
    DpyInv (dpyStep s op) := by
  obtain ⟨h1, h2, h3, h4, h5⟩ := h
  cases op <;>
    simp only [dpyStep, DpyInv] <;>
    split_ifs <;>
    cases htr : s.track_references <;>
    simp_all <;>
    omega

theorem dpyStep_track (s : EplDisplay) (op : DpyOp) :
    (dpyStep s op).track_references = s.track_references := by
  cases op <;> simp only [dpyStep] <;> split_ifs <;> rfl

theorem dpyTrace_inv :
    ∀ (ops : List DpyOp) (s : EplDisplay), DpyInv s →
    ∀ s' ∈ dpyTrace ops s, DpyInv s'
  | [], s, h => by
    intro s' hs'
    simp only [dpyTrace, List.mem_singleton] at hs'
    exact hs' ▸ h
  | op :: ops, s, h => by
    intro s' hs'
    simp only [dpyTrace, List.mem_cons] at hs'
    rcases hs' with rfl | hs'
    · exact h
    · exact dpyTrace_inv ops (dpyStep s op) (dpyStep_inv s op h) s' hs'

theorem dpyTrace_track :
    ∀ (ops : List DpyOp) (s : EplDisplay),
    ∀ s' ∈ dpyTrace ops s, s'.track_references = s.track_references
  | [], s => by
    intro s' hs'
    simp only [dpyTrace, List.mem_singleton] at hs'
    exact hs' ▸ rfl
  | op :: ops, s => by
    intro s' hs'
    simp only [dpyTrace, List.mem_cons] at hs'
    rcases hs' with rfl | hs'
    · rfl
    · rw [dpyTrace_track ops (dpyStep s op) s' hs', dpyStep_track]

/-- Claim C2: a display whose use_count is positive is never destroyed, in
every reachable state; a terminate request that arrives while use_count is
positive is recorded as pending instead of calling the dependency; the
deferred dependency terminate executes when the last use-count holder
releases, and the display is then destroyed once the refcount has also
reached zero; an ordinary refcount drop to zero with no use-count holder
destroys the display. -/
theorem claim_C2 :
    (∀ (track : Bool) (ops : List DpyOp),
      ∀ s' ∈ dpyTrace ops (dpyInit track),
        0 < s'.use_count → s'.destroyed = false)
    ∧ (∀ s : EplDisplay, s.destroyed = false → 0 < s.use_count →
        s.init_count = 1 →
        (dpyStep s .terminate).terminate_pending = true
        ∧ (dpyStep s .terminate).depTermCalls = s.depTermCalls
        ∧ (dpyStep s .terminate).destroyed = false)
    ∧ (∀ s : EplDisplay, s.destroyed = false → s.use_count = 1 →
        s.terminate_pending = true →
        (dpyStep s .useRelease).depTermCalls = s.depTermCalls + 1
        ∧ (dpyStep s .useRelease).terminate_pending = false
        ∧ (s.refcount = 0 → (dpyStep s .useRelease).destroyed = true))
    ∧ (∀ s : EplDisplay, s.destroyed = false → s.refcount = 1 →
        s.use_count = 0 →
        (dpyStep s .refRelease).destroyed = true) := by
  refine ⟨?_, ?_, ?_, ?_⟩
  · intro track ops s' hs' huse
    have hinv : DpyInv (dpyInit track) := by
      constructor <;> simp [dpyInit]
    have h := dpyTrace_inv ops (dpyInit track) hinv s' hs'
    by_contra hdes
    have : s'.use_count = 0 := h.2.2.2.2 (by
      cases hd : s'.destroyed
      · exact absurd hd hdes
      · rfl)
    omega
  · intro s hdes huse hinit
    have h0 : ¬(s.destroyed = true ∨ s.init_count ≤ 0) := by
      simp [hdes]; omega
    simp [dpyStep, h0, hdes, hinit, huse]
  · intro s hdes huse hpend
    have h0 : ¬(s.destroyed = true ∨ s.use_count ≤ 0) := by
      simp [hdes]; omega
    by_cases hr : s.refcount = 0
    · simp [dpyStep, h0, hdes, huse, hpend, hr]
    · simp [dpyStep, h0, hdes, huse, hpend, hr]
  · intro s hdes hr huse
    have h0 : ¬(s.destroyed = true ∨ s.refcount ≤ 0) := by
      simp [hdes]; omega
    simp [dpyStep, h0, hdes, hr, huse]

/-- Concrete witness for claim C2: on a display with one use-count holder,
terminate defers; releasing the use-count reference then executes the
deferred terminate, and the pending refcount drop destroys the display. -/
theorem claim_C2_witness :
    ((dpyTrace [DpyOp.useAcquire] (dpyInit false)).head? = some (dpyInit false)
      → 0 < (dpyInit false).use_count → (dpyInit false).destroyed = false)
    ∧ (dpyStep ⟨1, false, 1, 1, true, false, false, 1, 0⟩ .terminate).terminate_pending = true
    ∧ (dpyStep ⟨0, false, 0, 1, false, true, false, 1, 0⟩ .useRelease).depTermCalls = 1
    ∧ (dpyStep ⟨0, false, 0, 1, false, true, false, 1, 0⟩ .useRelease).destroyed = true
    ∧ (dpyStep ⟨1, false, 0, 0, false, false, false, 1, 1⟩ .refRelease).destroyed = true := by
  refine ⟨?_, ?_, ?_, ?_, ?_⟩
  · intro _ h
    exact claim_C2.1 false [DpyOp.useAcquire] (dpyInit false)
      (by simp [dpyTrace, List.mem_cons]) h
  · exact (claim_C2.2.1 ⟨1, false, 1, 1, true, false, false, 1, 0⟩
      rfl (by norm_num) rfl).1
  · have h := (claim_C2.2.2.1 ⟨0, false, 0, 1, false, true, false, 1, 0⟩
      rfl rfl rfl).1
    simpa using h
  · exact (claim_C2.2.2.1 ⟨0, false, 0, 1, false, true, false, 1, 0⟩
      rfl rfl rfl).2.2 rfl
  · exact claim_C2.2.2.2 ⟨1, false, 0, 0, false, false, false, 1, 1⟩
      rfl rfl rfl

/-- Totals of each display operation kind in a sequence. -/
structure OpCounts where
  ra : Nat
  rr : Nat
  ua : Nat
  ur : Nat
  ini : Nat
  ter : Nat
deriving DecidableEq, Repr

/-- Add one operation to the totals. -/
def bumpCount (c : OpCounts) : DpyOp → OpCounts
  | .refAcquire => { c with ra := c.ra + 1 }
  | .refRelease => { c with rr := c.rr + 1 }
  | .useAcquire => { c with ua := c.ua + 1 }
  | .useRelease => { c with ur := c.ur + 1 }
  | .initOp => { c with ini := c.ini + 1 }
  | .terminate => { c with ter := c.ter + 1 }

/-- Totals of a whole sequence, starting from given totals. -/
def countsOf : List DpyOp → OpCounts → OpCounts
  | [], c => c
  | op :: ops, c => countsOf ops (bumpCount c op)

/-- Guard making one more operation well formed after the given totals:
every release and terminate must match an earlier unreleased acquire or
initialize. -/
def wfGuard (c : OpCounts) : DpyOp → Bool
  | .refRelease => decide (c.rr < c.ra)
  | .useRelease => decide (c.ur < c.ua)
  | .terminate => decide (c.ter < c.ini)
  | _ => true

/-- A well-formed (properly bracketed) operation sequence: no release or
terminate without a matching earlier acquire or initialize. -/
def wfF (c : OpCounts) : List DpyOp → Bool
  | [] => true
  | op :: ops => wfGuard c op && wfF (bumpCount c op) ops

/-- Exact bookkeeping invariant tying a display state to the operation
totals consumed so far, for well-formed sequences starting from a freshly
created display. -/
def EInv (c : OpCounts) (s : EplDisplay) : Prop :=
  s.refcount = 1 + (c.ra : Int) - (c.rr : Int)
  ∧ s.use_count = (c.ua : Int) - (c.ur : Int)
  ∧ 0 ≤ s.init_count
  ∧ s.init_count ≤ (c.ini : Int) - (c.ter : Int)
  ∧ s.destroyed = false
  ∧ c.rr ≤ c.ra ∧ c.ur ≤ c.ua ∧ c.ter ≤ c.ini

theorem einv_step (c : OpCounts) (s : EplDisplay) (op : DpyOp)
    (h : EInv c s) (hg : wfGuard c op = true) :
    EInv (bumpCount c op) (dpyStep s op) := by
  obtain ⟨e1, e2, e3, e4, e5, e6, e7, e8⟩ := h
  cases op <;>
    simp only [wfGuard, decide_eq_true_eq] at hg <;>
    simp only [dpyStep, bumpCount, EInv, e5] <;>
    split_ifs <;>
    simp_all <;>
    omega

theorem dpyRun_einv :
    ∀ (ops : List DpyOp) (c : OpCounts) (s : EplDisplay),
    EInv c s → wfF c ops = true → EInv (countsOf ops c) (dpyRun ops s)
  | [], _, _, h, _ => h
  | op :: ops, c, s, h, hwf => by
    simp only [wfF, Bool.and_eq_true] at hwf
    exact dpyRun_einv ops (bumpCount c op) (dpyStep s op)
      (einv_step c s op h hwf.1) hwf.2

/-- Claim C4: for every sequence of acquire, release, initialize and
terminate operations on a display, init_count and use_count stay
non-negative at every step, and init_count never exceeds 1 when the display
was created with track_references false; for a well-formed sequence in
which every use acquire is matched by a release and every initialize by a
terminate, both counters are 0 after the sequence. -/
theorem claim_C4 (track : Bool) (ops : List DpyOp) :
    (∀ s' ∈ dpyTrace ops (dpyInit track),
        0 ≤ s'.init_count ∧ 0 ≤ s'.use_count
        ∧ (track = false → s'.init_count ≤ 1))
    ∧ (wfF ⟨0, 0, 0, 0, 0, 0⟩ ops = true →
        (countsOf ops ⟨0, 0, 0, 0, 0, 0⟩).ua = (countsOf ops ⟨0, 0, 0, 0, 0, 0⟩).ur →
        (countsOf ops ⟨0, 0, 0, 0, 0, 0⟩).ini = (countsOf ops ⟨0, 0, 0, 0, 0, 0⟩).ter →
        (dpyRun ops (dpyInit track)).init_count = 0
        ∧ (dpyRun ops (dpyInit track)).use_count = 0) := by
  constructor
  · intro s' hs'
    have hinv : DpyInv (dpyInit track) := by
      constructor <;> simp [dpyInit]
    have h := dpyTrace_inv ops (dpyInit track) hinv s' hs'
    have ht := dpyTrace_track ops (dpyInit track) s' hs'
    refine ⟨h.2.1, h.2.2.1, ?_⟩
    intro htr
    refine h.2.2.2.1 ?_
    rw [ht]
    exact htr
  · intro hwf hua hit
    have h0 : EInv ⟨0, 0, 0, 0, 0, 0⟩ (dpyInit track) := by
      refine ⟨?_, ?_, ?_, ?_, ?_, ?_, ?_, ?_⟩ <;> simp [dpyInit]
    obtain ⟨e1, e2, e3, e4, e5, e6, e7, e8⟩ :=
      dpyRun_einv ops ⟨0, 0, 0, 0, 0, 0⟩ (dpyInit track) h0 hwf
    constructor
    · omega
    · omega

/-- Concrete witness for claim C4: a balanced sequence of use acquire,
initialize, terminate, use release, ref acquire, ref release on a display
without track_references ends with both counters at 0, and the initial
state satisfies the step invariant. -/
theorem claim_C4_witness :
    (0 ≤ (dpyInit false).init_count ∧ 0 ≤ (dpyInit false).use_count
      ∧ (false = false → (dpyInit false).init_count ≤ 1))
    ∧ ((dpyRun [DpyOp.useAcquire, DpyOp.initOp, DpyOp.terminate,
          DpyOp.useRelease, DpyOp.refAcquire, DpyOp.refRelease]
          (dpyInit false)).init_count = 0
        ∧ (dpyRun [DpyOp.useAcquire, DpyOp.initOp, DpyOp.terminate,
            DpyOp.useRelease, DpyOp.refAcquire, DpyOp.refRelease]
            (dpyInit false)).use_count = 0) :=
  ⟨(claim_C4 false [DpyOp.useAcquire, DpyOp.initOp, DpyOp.terminate,
      DpyOp.useRelease, DpyOp.refAcquire, DpyOp.refRelease]).1
      (dpyInit false) (by decide),
   (claim_C4 false [DpyOp.useAcquire, DpyOp.initOp, DpyOp.terminate,
      DpyOp.useRelease, DpyOp.refAcquire, DpyOp.refRelease]).2
      (by decide) (by decide) (by decide)⟩

/-- An operation of the platform core that is relevant to teardown: the two
internal-display entrypoints that call into the dependency, and the
teardown itself. -/
inductive PlatOp where
  | opInitialize
  | opTerminate
  | opTeardown
deriving DecidableEq, Repr

/-- Modelled from the spec: one platform-level step (platform-base.c is
missing from the sources). Teardown sets the destroyed flag; the other
operations run the corresponding internal-display entrypoint and report its
success. -/
def platStep (dep : DepBehavior) (s : EplPlatformData × EplInternalDisplay) :
    PlatOp → (EplPlatformData × EplInternalDisplay) × Bool
  | .opInitialize =>
      (((eplInitializeInternalDisplay dep s.1 s.2).1,
        (eplInitializeInternalDisplay dep s.1 s.2).2.1),
       (eplInitializeInternalDisplay dep s.1 s.2).2.2.isSome)
  | .opTerminate =>
      (((eplTerminateInternalDisplay dep s.1 s.2).1,
        (eplTerminateInternalDisplay dep s.1 s.2).2.1),
       (eplTerminateInternalDisplay dep s.1 s.2).2.2)
  | .opTeardown => (({ s.1 with destroyed := true }, s.2), true)

theorem eplInit_destroyed (dep : DepBehavior) (p : EplPlatformData)
    (d : EplInternalDisplay) :
    (eplInitializeInternalDisplay dep p d).1.destroyed = p.destroyed := by
  unfold eplInitializeInternalDisplay
  split_ifs
  · rfl
  · cases hres : dep.initResult p.depInitCalls with
    | none => rfl
    | some v => cases v; rfl
  · rfl

theorem eplTerm_destroyed (dep : DepBehavior) (p : EplPlatformData)
    (d : EplInternalDisplay) :
    (eplTerminateInternalDisplay dep p d).1.destroyed = p.destroyed := by
  unfold eplTerminateInternalDisplay
  split_ifs <;> rfl

/-- Claim C3: the destroyed flag is monotonic, set exactly by the teardown
operation and never cleared; once it is true, every operation that would
call into the dependency returns failure and leaves both dependency call
counters untouched. -/
theorem claim_C3 (dep : DepBehavior)
    (s : EplPlatformData × EplInternalDisplay) (op : PlatOp) :
    ((platStep dep s op).1.1.destroyed
      = (s.1.destroyed || decide (op = PlatOp.opTeardown)))
    ∧ (s.1.destroyed = true →
        (platStep dep s op).1.1.depInitCalls = s.1.depInitCalls
        ∧ (platStep dep s op).1.1.depTermCalls = s.1.depTermCalls
        ∧ (platStep dep s op).1.2 = s.2
        ∧ (op ≠ PlatOp.opTeardown → (platStep dep s op).2 = false)) := by
  constructor
  · cases op
    · simp [platStep, eplInit_destroyed]
    · simp [platStep, eplTerm_destroyed]
    · simp [platStep]
  · intro hd
    cases op
    · simp [platStep, eplInitializeInternalDisplay, hd]
    · simp [platStep, eplTerminateInternalDisplay, hd]
    · simp [platStep, hd]

/-- Concrete witness for claim C3: after teardown, an initialize operation
fails and leaves the dependency call counters at their previous values. -/
theorem claim_C3_witness :
    (platStep ⟨fun _ => some (1, 4), fun _ => true⟩
        (⟨true, false, 3, 2⟩, ⟨1, 1, 4⟩) PlatOp.opInitialize).1.1.destroyed
      = (true || decide (PlatOp.opInitialize = PlatOp.opTeardown))
    ∧ (platStep ⟨fun _ => some (1, 4), fun _ => true⟩
        (⟨true, false, 3, 2⟩, ⟨1, 1, 4⟩) PlatOp.opInitialize).1.1.depInitCalls = 3
    ∧ (platStep ⟨fun _ => some (1, 4), fun _ => true⟩
        (⟨true, false, 3, 2⟩, ⟨1, 1, 4⟩) PlatOp.opInitialize).1.1.depTermCalls = 2
    ∧ (platStep ⟨fun _ => some (1, 4), fun _ => true⟩
        (⟨true, false, 3, 2⟩, ⟨1, 1, 4⟩) PlatOp.opInitialize).2 = false := by
  have h := claim_C3 ⟨fun _ => some (1, 4), fun _ => true⟩
    (⟨true, false, 3, 2⟩, ⟨1, 1, 4⟩) PlatOp.opInitialize
  have h2 := h.2 rfl
  exact ⟨h.1, h2.1, h2.2.1, h2.2.2.2 (by decide)⟩

/-- An entry of the Global Display List as seen by eplDisplayAcquire: the
external handle, the refcount, the recursive-mutex hold depth, and the
initialized flag. -/
structure GDpy where
  handle : Nat
  refcount : Nat
  lock : Nat
  initialized : Bool
deriving DecidableEq, Repr

/-- Acquire one reference and one lock level on the entries matching a
handle. -/
def gdpyBump (h : Nat) (e : GDpy) : GDpy :=
  if e.handle = h then
    { e with refcount := e.refcount + 1, lock := e.lock + 1 }
  else e

/-- Drop one reference and one lock level on the entries matching a
handle. -/
def gdpyUnbump (h : Nat) (e : GDpy) : GDpy :=
  if e.handle = h then
    { e with refcount := e.refcount - 1, lock := e.lock - 1 }
  else e

/-- Modelled from the spec: eplDisplayAcquire (platform-base.c is missing
from the sources). It locates the display by external handle in the Global
Display List, acquires a reference, locks its recursive mutex, and checks
the initialized flag; if the display is not initialized the reference and
lock are dropped again and null is returned; on success the display is
returned still locked and referenced. -/
def eplDisplayAcquire (g : List GDpy) (h : Nat) : List GDpy × Option GDpy :=
  match g.find? (fun e => e.handle == h) with
  | none => (g, none)
  | some d =>
      if d.initialized then
        (g.map (gdpyBump h),
         some { d with refcount := d.refcount + 1, lock := d.lock + 1 })
      else
        ((g.map (gdpyBump h)).map (gdpyUnbump h), none)

/-- Modelled from the spec: eplDisplayRelease (platform-base.c is missing
from the sources). It unlocks the mutex and releases the reference of the
display with the given handle; if the refcount reaches zero the display is
removed from the Global Display List and freed. -/
def eplDisplayRelease (g : List GDpy) (h : Nat) : List GDpy :=
  g.filterMap (fun e =>
    if e.handle = h then
      if e.refcount - 1 = 0 then none
      else some { e with refcount := e.refcount - 1, lock := e.lock - 1 }
    else some e)

theorem gdpy_unbump_bump (h : Nat) (e : GDpy) :
    gdpyUnbump h (gdpyBump h e) = e := by
  cases e with
  | mk eh er el ei =>
    by_cases hh : eh = h
    · simp [gdpyBump, gdpyUnbump, hh]
    · simp [gdpyBump, gdpyUnbump, hh]

theorem gdpy_map_unbump_bump (h : Nat) :
    ∀ g : List GDpy, (g.map (gdpyBump h)).map (gdpyUnbump h) = g
  | [] => rfl
  | e :: g => by
    simp only [List.map_cons, gdpy_unbump_bump]
    rw [gdpy_map_unbump_bump h g]

theorem gdpy_map_unbump_bump_comp (h : Nat) (g : List GDpy) :
    List.map (gdpyUnbump h ∘ gdpyBump h) g = g := by
  have hg := gdpy_map_unbump_bump h g
  rwa [List.map_map] at hg

/-- Claim C5: eplDisplayAcquire either fully succeeds, returning the
display with one more reference, its recursive mutex locked one level
deeper, and the initialized flag true, or fully fails returning null with
no net change to the list and hence to any refcount; in particular a
display that is found but not initialized is released again and null is
returned. -/
theorem claim_C5 (g : List GDpy) (h : Nat) :
    (g.find? (fun e => e.handle == h) = none →
        eplDisplayAcquire g h = (g, none))
    ∧ (∀ d, g.find? (fun e => e.handle == h) = some d →
        d.initialized = false → eplDisplayAcquire g h = (g, none))
    ∧ (∀ d, g.find? (fun e => e.handle == h) = some d →
        d.initialized = true →
        eplDisplayAcquire g h
          = (g.map (gdpyBump h),
             some { d with refcount := d.refcount + 1, lock := d.lock + 1 })) := by
  refine ⟨?_, ?_, ?_⟩
  · intro hf
    simp [eplDisplayAcquire, hf]
  · intro d hf hi
    simp [eplDisplayAcquire, hf, hi, gdpy_map_unbump_bump_comp]
  · intro d hf hi
    simp [eplDisplayAcquire, hf, hi]

/-- Concrete witness for claim C5: acquiring an uninitialized display fails
with the list unchanged, and acquiring an initialized display returns it
referenced and locked. -/
theorem claim_C5_witness :
    eplDisplayAcquire [⟨5, 1, 0, false⟩] 5 = ([⟨5, 1, 0, false⟩], none)
    ∧ eplDisplayAcquire [⟨7, 1, 0, true⟩] 7
        = ([⟨7, 2, 1, true⟩], some ⟨7, 2, 1, true⟩) := by
  constructor
  · exact (claim_C5 [⟨5, 1, 0, false⟩] 5).2.1 ⟨5, 1, 0, false⟩ (by decide) rfl
  · have h := (claim_C5 [⟨7, 1, 0, true⟩] 7).2.2 ⟨7, 1, 0, true⟩ (by decide) rfl
    simpa [gdpyBump] using h

theorem gdpy_release_bump (h : Nat) :
    ∀ g : List GDpy, (∀ e ∈ g, 1 ≤ e.refcount) →
    eplDisplayRelease (g.map (gdpyBump h)) h = g
  | [], _ => rfl
  | ⟨eh, er, el, ei⟩ :: g, hlive => by
    have he : 1 ≤ er := hlive ⟨eh, er, el, ei⟩ (List.mem_cons_self _ _)
    have hrest : ∀ x ∈ g, 1 ≤ x.refcount :=
      fun x hx => hlive x (List.mem_cons_of_mem _ hx)
    have htail := gdpy_release_bump h g hrest
    simp only [eplDisplayRelease, List.map_cons, List.filterMap_cons] at htail ⊢
    by_cases hh : eh = h
    · subst hh
      have h1 : ¬(er + 1 - 1 = 0) := by omega
      have h2 : ¬(er = 0) := by omega
      simp [gdpyBump, h1, h2, htail]
    · simp [gdpyBump, hh, htail]

/-- Claim C9: acquiring a display by external handle, releasing it, and
re-acquiring by the same handle returns the same underlying object with the
Global Display List restored exactly, provided every listed display keeps a
positive refcount in between. -/
theorem claim_C9 (g : List GDpy) (h : Nat) (d : GDpy)
    (hfind : g.find? (fun e => e.handle == h) = some d)
    (hinit : d.initialized = true)
    (hlive : ∀ e ∈ g, 1 ≤ e.refcount) :
    eplDisplayRelease (eplDisplayAcquire g h).1 h = g
    ∧ eplDisplayAcquire (eplDisplayRelease (eplDisplayAcquire g h).1 h) h
        = eplDisplayAcquire g h := by
  have hacq := (claim_C5 g h).2.2 d hfind hinit
  have hrel : eplDisplayRelease (eplDisplayAcquire g h).1 h = g := by
    rw [hacq]
    exact gdpy_release_bump h g hlive
  exact ⟨hrel, by rw [hrel]⟩

/-- Concrete witness for claim C9: acquire, release, re-acquire on a
one-element list returns the same object and restores the list. -/
theorem claim_C9_witness :
    eplDisplayRelease (eplDisplayAcquire [⟨9, 2, 0, true⟩] 9).1 9
        = [⟨9, 2, 0, true⟩]
    ∧ eplDisplayAcquire
        (eplDisplayRelease (eplDisplayAcquire [⟨9, 2, 0, true⟩] 9).1 9) 9
        = eplDisplayAcquire [⟨9, 2, 0, true⟩] 9 :=
  claim_C9 [⟨9, 2, 0, true⟩] 9 ⟨9, 2, 0, true⟩ (by decide) rfl (by decide)

/-- Model of EplSurface (platform-base.h): the external and internal
surface handles, the surface type, the deleted flag, and the refcount. -/
structure EplSurface where
  external_surface : Nat
  internal_surface : Nat
  ty : EplSurfaceType
  deleted : Bool
  refcount : Nat
deriving DecidableEq, Repr

/-- The surface-related state of one display: its surface list and the
internal handle of the current surface reported by the dependency, if
any. -/
structure SurfDisplay where
  surface_list : List EplSurface
  current : Option Nat
deriving DecidableEq, Repr

/-- Modelled from the spec: eplSurfaceAcquire (platform-base.c is missing
from the sources). Under the display lock it scans the surface list for a
matching external handle, never returning a surface whose deleted flag is
set, acquires a reference on it and returns it; surfaces not in the list
(pbuffers and streams) yield null. -/
def eplSurfaceAcquire (st : SurfDisplay) (es : Nat) :
    SurfDisplay × Option EplSurface :=
  match st.surface_list.find?
      (fun s => s.external_surface == es && !s.deleted) with
  | none => (st, none)
  | some s =>
      ({ st with surface_list := st.surface_list.map (fun e =>
          if e.external_surface = es ∧ e.deleted = false then
            { e with refcount := e.refcount + 1 }
          else e) },
       some { s with refcount := s.refcount + 1 })

/-- Modelled from the spec: eplSurfaceRelease (platform-base.c is missing
from the sources). It drops one reference from the surface with the given
external handle; if the deleted flag is set, this was the last reference,
and the surface is not the current surface, it is removed from the list and
freed; otherwise it stays in the list. -/
def eplSurfaceRelease (st : SurfDisplay) (es : Nat) : SurfDisplay :=
  { st with surface_list := st.surface_list.filterMap (fun s =>
      if s.external_surface = es then
        if s.refcount - 1 = 0 ∧ s.deleted = true
            ∧ st.current ≠ some s.internal_surface then none
        else some { s with refcount := s.refcount - 1 }
      else some s) }

/-- Modelled from the spec: eplSwitchCurrentSurface (platform-base.c is
missing from the sources). If the old internal surface handle is the
current one, the current binding is replaced by the new internal handle;
otherwise nothing changes. -/
def eplSwitchCurrentSurface (st : SurfDisplay) (oldS newS : Nat) :
    SurfDisplay :=
  if st.current = some oldS then { st with current := some newS } else st

/-- Claim C8: a surface whose deleted flag is set is never returned by
eplSurfaceAcquire; acquiring never frees any surface; releasing a surface
that is still the current surface, or that has more than one reference,
keeps it in the list; releasing the last reference of a deleted surface that
is not current removes and frees it; and after eplSwitchCurrentSurface moves
the current binding away, releasing the last reference frees it. -/
theorem claim_C8 :
    (∀ (st : SurfDisplay) (es : Nat) (s : EplSurface),
        (eplSurfaceAcquire st es).2 = some s → s.deleted = false)
    ∧ (∀ (st : SurfDisplay) (es : Nat),
        (eplSurfaceAcquire st es).1.surface_list.length
          = st.surface_list.length)
    ∧ (∀ (st : SurfDisplay) (s : EplSurface), s ∈ st.surface_list →
        (st.current = some s.internal_surface ∨ 2 ≤ s.refcount) →
        { s with refcount := s.refcount - 1 }
          ∈ (eplSurfaceRelease st s.external_surface).surface_list)
    ∧ (∀ (s : EplSurface) (cur : Option Nat), s.deleted = true →
        s.refcount = 1 → cur ≠ some s.internal_surface →
        (eplSurfaceRelease ⟨[s], cur⟩ s.external_surface).surface_list = [])
    ∧ (∀ (s : EplSurface) (newS : Nat), s.deleted = true → s.refcount = 1 →
        newS ≠ s.internal_surface →
        (eplSurfaceRelease
          (eplSwitchCurrentSurface ⟨[s], some s.internal_surface⟩
            s.internal_surface newS)
          s.external_surface).surface_list = []) := by
  refine ⟨?_, ?_, ?_, ?_, ?_⟩
  · intro st es s hs
    unfold eplSurfaceAcquire at hs
    cases hf : st.surface_list.find?
        (fun s => s.external_surface == es && !s.deleted) with
    | none => rw [hf] at hs; exact absurd hs (by simp)
    | some s0 =>
      rw [hf] at hs
      have hpred := List.find?_some hf
      simp only [Bool.and_eq_true, Bool.not_eq_eq_eq_not, Bool.not_true,
        beq_iff_eq] at hpred
      simp only [Option.some.injEq] at hs
      rw [← hs]
      exact hpred.2
  · intro st es
    unfold eplSurfaceAcquire
    cases hf : st.surface_list.find?
        (fun s => s.external_surface == es && !s.deleted) with
    | none => rfl
    | some s0 => simp
  · intro st s hmem hkeep
    unfold eplSurfaceRelease
    simp only [List.mem_filterMap]
    refine ⟨s, hmem, ?_⟩
    have hcond : ¬(s.refcount - 1 = 0 ∧ s.deleted = true
        ∧ st.current ≠ some s.internal_surface) := by
      rcases hkeep with hcur | hrc
      · intro hc
        exact hc.2.2 hcur
      · intro hc
        omega
    simp [hcond]
  · intro s cur hdel hrc hcur
    unfold eplSurfaceRelease
    have hcond : s.refcount - 1 = 0 ∧ s.deleted = true
        ∧ cur ≠ some s.internal_surface := ⟨by omega, hdel, hcur⟩
    simp [hcond]
  · intro s newS hdel hrc hnew
    have hsw : eplSwitchCurrentSurface ⟨[s], some s.internal_surface⟩
        s.internal_surface newS = ⟨[s], some newS⟩ := by
      simp [eplSwitchCurrentSurface]
    rw [hsw]
    unfold eplSurfaceRelease
    have hcond : s.refcount - 1 = 0 ∧ s.deleted = true
        ∧ (some newS : Option Nat) ≠ some s.internal_surface :=
      ⟨by omega, hdel, by simpa using hnew⟩
    simp [hcond, hnew]

/-- Concrete witness for claim C8: a deleted surface is invisible to
acquire and survives release while current, and is freed by release once
the binding has moved away. -/
theorem claim_C8_witness :
    ((eplSurfaceAcquire ⟨[⟨3, 30, EplSurfaceType.window, true, 1⟩], some 30⟩ 3).1.surface_list.length
      = 1)
    ∧ (⟨3, 30, EplSurfaceType.window, true, 1⟩ : EplSurface).refcount - 1 = 0
    ∧ ({ (⟨3, 30, EplSurfaceType.window, true, 2⟩ : EplSurface) with refcount := 1 }
        ∈ (eplSurfaceRelease ⟨[⟨3, 30, EplSurfaceType.window, true, 2⟩], some 30⟩ 3).surface_list)
    ∧ (eplSurfaceRelease
        (eplSwitchCurrentSurface ⟨[⟨3, 30, EplSurfaceType.window, true, 1⟩], some 30⟩ 30 31)
        3).surface_list = [] := by
  refine ⟨?_, by decide, ?_, ?_⟩
  · exact claim_C8.2.1 ⟨[⟨3, 30, EplSurfaceType.window, true, 1⟩], some 30⟩ 3
  · have h := claim_C8.2.2.1 ⟨[⟨3, 30, EplSurfaceType.window, true, 2⟩], some 30⟩
      ⟨3, 30, EplSurfaceType.window, true, 2⟩ (by decide) (Or.inl rfl)
    simpa using h
  · exact claim_C8.2.2.2.2 ⟨3, 30, EplSurfaceType.window, true, 1⟩ 31
      rfl rfl (by decide)

/-- The modulus of the unsigned int counters declared in platform-base.h. -/
def W32 : Nat := 2 ^ 32

/-- One step of the internal-display init_count with unsigned 32-bit
wrap-around arithmetic, dependency calls always succeeding: initialize
increments modulo 2 to the 32, terminate is refused at 0 and otherwise adds
2 to the 32 minus 1 modulo 2 to the 32 (the two-complement decrement). -/
def wIStep (c : Nat) : IOp → Nat
  | .init => (c + 1) % W32
  | .term => if c = 0 then c else (c + (W32 - 1)) % W32

/-- Run of the wrapped internal-display counter. -/
def wIRun : List IOp → Nat → Nat
  | [], c => c
  | op :: ops, c => wIRun ops (wIStep c op)

/-- Trace of the wrapped internal-display counter, start included. -/
def wITrace : List IOp → Nat → List Nat
  | [], c => [c]
  | op :: ops, c => c :: wITrace ops (wIStep c op)

/-- Counters of EplDisplay with unsigned 32-bit wrap-around arithmetic. -/
structure WDpy where
  refcount : Nat
  track_references : Bool
  init_count : Nat
  use_count : Nat
  initialized : Bool
  terminate_pending : Bool
  destroyed : Bool
deriving DecidableEq, Repr

/-- The external-display step with unsigned 32-bit wrap-around arithmetic
on refcount, init_count and use_count; same guards as dpyStep. -/
def wDpyStep (s : WDpy) : DpyOp → WDpy
  | .refAcquire =>
      if s.destroyed then s else { s with refcount := (s.refcount + 1) % W32 }
  | .refRelease =>
      if s.destroyed ∨ s.refcount = 0 then s
      else if s.refcount = 1 ∧ s.use_count = 0 then
        { s with refcount := 0, destroyed := true }
      else { s with refcount := (s.refcount + (W32 - 1)) % W32 }
  | .useAcquire =>
      if s.destroyed then s else { s with use_count := (s.use_count + 1) % W32 }
  | .useRelease =>
      if s.destroyed ∨ s.use_count = 0 then s
      else if s.use_count = 1 then
        if s.terminate_pending then
          if s.refcount = 0 then
            { s with use_count := 0, terminate_pending := false,
                     destroyed := true }
          else { s with use_count := 0, terminate_pending := false }
        else
          if s.refcount = 0 then { s with use_count := 0, destroyed := true }
          else { s with use_count := 0 }
      else { s with use_count := (s.use_count + (W32 - 1)) % W32 }
  | .initOp =>
      if s.destroyed then s
      else if s.initialized then
        if s.track_references then
          { s with init_count := (s.init_count + 1) % W32 }
        else s
      else { s with initialized := true, init_count := 1 }
  | .terminate =>
      if s.destroyed ∨ s.init_count = 0 then s
      else if s.init_count = 1 then
        if 0 < s.use_count then
          { s with init_count := 0, initialized := false,
                   terminate_pending := true }
        else { s with init_count := 0, initialized := false }
      else { s with init_count := (s.init_count + (W32 - 1)) % W32 }

/-- Trace of the wrapped display machine, start included. -/
def wDpyTrace : List DpyOp → WDpy → List WDpy
  | [], s => [s]
  | op :: ops, s => s :: wDpyTrace ops (wDpyStep s op)

/-- A freshly created wrapped display. -/
def wDpyInit (track : Bool) : WDpy :=
  { refcount := 1, track_references := track, init_count := 0, use_count := 0,
    initialized := false, terminate_pending := false, destroyed := false }

theorem wdec_le (x k : Nat) (hx : x ≤ k) (hk : k < W32) (h1 : x ≠ 0) :
    (x + (W32 - 1)) % W32 ≤ k := by
  have hW : 1 ≤ W32 := by norm_num [W32]
  have hxW : x < W32 := lt_of_le_of_lt hx hk
  have he : x + (W32 - 1) = W32 + (x - 1) := by omega
  rw [he, Nat.add_mod_left, Nat.mod_eq_of_lt (by omega)]
  omega

theorem wITrace_le :
    ∀ (ops : List IOp) (c k : Nat), c ≤ k → k + ops.length < W32 →
    ∀ c' ∈ wITrace ops c, c' ≤ k + ops.length
  | [], c, k, hck, _ => by
    intro c' hc'
    simp only [wITrace, List.mem_singleton] at hc'
    subst hc'
    simpa using hck
  | op :: ops, c, k, hck, hlen => by
    intro c' hc'
    simp only [wITrace, List.mem_cons] at hc'
    simp only [List.length_cons] at hlen
    rcases hc' with rfl | hc'
    · simp only [List.length_cons]
      omega
    · have hstep : wIStep c op ≤ k + 1 := by
        cases op
        · exact le_trans (Nat.mod_le _ _) (by omega)
        · simp only [wIStep]
          split_ifs with h0
          · omega
          · exact le_trans (wdec_le c k hck (by omega) h0) (by omega)
      have := wITrace_le ops (wIStep c op) (k + 1) hstep (by omega) c' hc'
      simp only [List.length_cons]
      omega

theorem wDpyStep_le (s : WDpy) (op : DpyOp) (k : Nat)
    (hr : s.refcount ≤ k) (hi : s.init_count ≤ k) (hu : s.use_count ≤ k)
    (hkW : k < W32) :
    (wDpyStep s op).refcount ≤ k + 1 ∧ (wDpyStep s op).init_count ≤ k + 1
    ∧ (wDpyStep s op).use_count ≤ k + 1 := by
  cases op <;>
    simp only [wDpyStep] <;>
    split_ifs <;>
    refine ⟨?_, ?_, ?_⟩ <;>
    (try simp_all) <;>
    first
      | omega
      | exact le_trans (Nat.mod_le _ _) (by omega)
      | exact le_trans (wdec_le _ k (by omega) (by omega) (by omega)) (by omega)

theorem wDpyTrace_le :
    ∀ (ops : List DpyOp) (s : WDpy) (k : Nat),
    s.refcount ≤ k → s.init_count ≤ k → s.use_count ≤ k →
    k + ops.length < W32 →
    ∀ s' ∈ wDpyTrace ops s,
      s'.refcount ≤ k + ops.length ∧ s'.init_count ≤ k + ops.length
      ∧ s'.use_count ≤ k + ops.length
  | [], s, k, h1, h2, h3, _ => by
    intro s' hs'
    simp only [wDpyTrace, List.mem_singleton] at hs'
    subst hs'
    simp only [List.length_nil]
    omega
  | op :: ops, s, k, h1, h2, h3, hlen => by
    intro s' hs'
    simp only [wDpyTrace, List.mem_cons] at hs'
    simp only [List.length_cons] at hlen
    rcases hs' with rfl | hs'
    · simp only [List.length_cons]
      omega
    · obtain ⟨g1, g2, g3⟩ := wDpyStep_le s op k h1 h2 h3 (by omega)
      have := wDpyTrace_le ops (wDpyStep s op) (k + 1) g1 g2 g3 (by omega) s' hs'
      simp only [List.length_cons]
      omega

theorem wIRun_replicate :
    ∀ (n c : Nat), c < W32 →
    wIRun (List.replicate n IOp.init) c = (c + n) % W32
  | 0, c, hc => by
    simp [wIRun, Nat.mod_eq_of_lt hc]
  | n + 1, c, hc => by
    have hlt : (c + 1) % W32 < W32 := Nat.mod_lt _ (by norm_num [W32])
    have hrec := wIRun_replicate n ((c + 1) % W32) hlt
    have hrun : wIRun (List.replicate (n + 1) IOp.init) c
        = wIRun (List.replicate n IOp.init) ((c + 1) % W32) := by
      rw [List.replicate_succ]
      rfl
    rw [hrun, hrec, Nat.mod_add_mod]
    have harith : c + 1 + n = c + (n + 1) := by omega
    rw [harith]

/-- Claim C10 counterexample: the three counters are unsigned 32-bit
integers, and the claim that no reachable state holds the wrapped value
2 to the 32 minus 1 is false: 2 to the 32 minus 1 consecutive initialize
operations on an internal display, each one a plain unsigned increment,
drive init_count to exactly that value without any decrement at 0. -/
theorem claim_C10_counterexample :
    wIRun (List.replicate (W32 - 1) IOp.init) 0 = W32 - 1 := by
  rw [wIRun_replicate (W32 - 1) 0 (by norm_num [W32])]
  rw [Nat.zero_add]
  exact Nat.mod_eq_of_lt (by norm_num [W32])

/-- Claim C10, amended: the counters are unsigned and cannot become
negative; no operation decrements any of the three counters while its value
is 0 (a step from a zero counter leaves it at 0 or 1); and along any
execution short enough that plain increments cannot reach the top value
(fewer than 2 to the 32 minus 1 operations for the internal display,
fewer than 2 to the 32 minus 2 for the external display, which starts with
refcount 1), no counter ever holds the wrapped value 2 to the 32 minus 1.
The unqualified reachability form of the claim fails because enough plain
increments do reach that value. -/
theorem claim_C10 :
    (∀ (c : Nat) (op : IOp), c = 0 → wIStep c op = 0 ∨ wIStep c op = 1)
    ∧ (∀ (s : WDpy) (op : DpyOp), s.init_count = 0 →
        (wDpyStep s op).init_count = 0 ∨ (wDpyStep s op).init_count = 1)
    ∧ (∀ (s : WDpy) (op : DpyOp), s.use_count = 0 →
        (wDpyStep s op).use_count = 0 ∨ (wDpyStep s op).use_count = 1)
    ∧ (∀ ops : List IOp, ops.length + 1 < W32 →
        ∀ c' ∈ wITrace ops 0, c' ≠ W32 - 1)
    ∧ (∀ (track : Bool) (ops : List DpyOp), ops.length + 2 < W32 →
        ∀ s' ∈ wDpyTrace ops (wDpyInit track),
          s'.init_count ≠ W32 - 1 ∧ s'.use_count ≠ W32 - 1) := by
  have hone : (1 : Nat) % W32 = 1 := Nat.mod_eq_of_lt (by norm_num [W32])
  refine ⟨?_, ?_, ?_, ?_, ?_⟩
  · intro c op hc
    subst hc
    cases op
    · right
      simpa [wIStep] using hone
    · left
      simp [wIStep]
  · intro s op h0
    cases op <;>
      simp only [wDpyStep] <;>
      split_ifs <;>
      simp_all [hone]
  · intro s op h0
    cases op <;>
      simp only [wDpyStep] <;>
      split_ifs <;>
      simp_all [hone]
  · intro ops hlen c' hc'
    have hb := wITrace_le ops 0 0 (le_refl 0) (by omega) c' hc'
    have hW : 4 ≤ W32 := by norm_num [W32]
    omega
  · intro track ops hlen s' hs'
    have hb := wDpyTrace_le ops (wDpyInit track) 1 (by simp [wDpyInit])
      (by simp [wDpyInit]) (by simp [wDpyInit]) (by omega) s' hs'
    have hW : 4 ≤ W32 := by norm_num [W32]
    omega

/-- Concrete witness for the amended claim C10: steps from zero counters
land on 0 or 1, and short traces never hold the top unsigned value. -/
theorem claim_C10_witness :
    (wIStep 0 IOp.init = 0 ∨ wIStep 0 IOp.init = 1)
    ∧ ((wDpyStep (wDpyInit true) DpyOp.initOp).init_count = 0
        ∨ (wDpyStep (wDpyInit true) DpyOp.initOp).init_count = 1)
    ∧ ((wDpyStep (wDpyInit true) DpyOp.useAcquire).use_count = 0
        ∨ (wDpyStep (wDpyInit true) DpyOp.useAcquire).use_count = 1)
    ∧ (0 : Nat) ≠ W32 - 1
    ∧ ((wDpyInit true).init_count ≠ W32 - 1
        ∧ (wDpyInit true).use_count ≠ W32 - 1) :=
  ⟨claim_C10.1 0 IOp.init rfl,
   claim_C10.2.1 (wDpyInit true) DpyOp.initOp rfl,
   claim_C10.2.2.1 (wDpyInit true) DpyOp.useAcquire rfl,
   claim_C10.2.2.2.1 [] (by norm_num [W32]) 0 (by simp [wITrace]),
   claim_C10.2.2.2.2 true [] (by norm_num [W32]) (wDpyInit true)
     (by simp [wDpyTrace])⟩

end Epl
